import Mathlib

/-
  Verification of the Lisp interpreter in src/lisp_interpreter.py.

  The interpreter is shallowly embedded: Python runtime objects (ints,
  floats, bools, strings, None, Pair cells, Function closures, builtin
  callables, and Python lists, which represent parsed expression trees)
  become the inductive type `Obj`; Python floats are modelled as exact
  rationals; environments are mutable objects, modelled as records in an
  explicit store indexed by `Nat` ids; fallible code returns `Except Err`;
  host-level Python exceptions (TypeError, AttributeError, IndexError,
  ZeroDivisionError, RecursionError) are distinguished from the
  interpreter's own LispError classes.  Recursive evaluation carries a
  fuel parameter, decremented on every call; exhaustion is modelled as
  the host RecursionError (Python's recursion limit).
-/

set_option linter.unusedVariables false

namespace Lisp

/-- The error kinds the interpreter can surface.  `syntaxError`,
`nameError` and `evalError` are the interpreter's own LispSyntaxError /
LispNameError / LispEvaluationError; the remaining ones are host (Python)
exceptions that escape the interpreter.  `invalidRef` marks model-internal
situations (an environment id not present in the store) that cannot arise
in stores produced by the entry points. -/
inductive Err where
  | syntaxError
  | nameError
  | evalError
  | typeError
  | attributeError
  | indexError
  | zeroDivisionError
  | recursionError
  | invalidRef
deriving DecidableEq, Repr

/-- Python runtime objects, as used by the interpreter: numbers, booleans,
strings (symbols and raw tokens), None (the Lisp nil), Pair cells, Function
closures (body, params, captured environment id, in the field order of the
Python class), builtin callables (identified by their table name), and
Python lists (parsed S-expression trees, also the argument lists). -/
inductive Obj where
  | int (n : Int)
  | float (q : Rat)
  | bool (b : Bool)
  | str (s : String)
  | none
  | pair (head tail : Obj)
  | func (body : Obj) (params : Obj) (envId : Nat)
  | builtin (name : String)
  | list (elems : List Obj)
deriving Repr

mutual

/-- Python `==` on the objects above: numeric kinds (int, float, bool)
compare by numeric value (so `1 == True` and `0.0 == False`), strings and
None compare as usual, Python lists compare elementwise.  Python compares
`Pair` and `Function` objects by identity (no `__eq__` is defined); object
identity is not represented here and no property below depends on such a
comparison, so those cases fall to the catch-all `false`. -/
def pyEq : Obj → Obj → Bool
  | .int a, .int b => a == b
  | .int a, .float q => (a : Rat) == q
  | .int a, .bool b => a == (if b then 1 else 0)
  | .float q, .int a => q == (a : Rat)
  | .float p, .float q => p == q
  | .float q, .bool b => q == (if b then (1 : Rat) else 0)
  | .bool a, .bool b => a == b
  | .bool b, .int a => (if b then (1 : Int) else 0) == a
  | .bool b, .float q => (if b then (1 : Rat) else 0) == q
  | .str a, .str b => a == b
  | .none, .none => true
  | .list a, .list b => pyEqList a b
  | _, _ => false

/-- Elementwise Python `==` of two Python lists. -/
def pyEqList : List Obj → List Obj → Bool
  | [], [] => true
  | a :: as1, b :: bs1 => pyEq a b && pyEqList as1 bs1
  | _, _ => false

end

/-- The numeric value of an int-like Python object (`int` or `bool`;
Python bools are ints in arithmetic). -/
def intOf : Obj → Option Int
  | .int n => some n
  | .bool b => some (if b then 1 else 0)
  | _ => Option.none

/-- The numeric value of any Python number (int, float or bool), as an
exact rational. -/
def asNum : Obj → Option Rat
  | .int n => some (n : Rat)
  | .float q => some q
  | .bool b => some (if b then 1 else 0)
  | _ => Option.none

/-- Python `+`: int-like + int-like stays int, any float makes a float,
str + str concatenates; anything else raises TypeError. -/
def pyAdd (a b : Obj) : Except Err Obj :=
  match a, b with
  | .str s, .str t => .ok (.str (s ++ t))
  | _, _ =>
    match intOf a, intOf b with
    | some i, some j => .ok (.int (i + j))
    | _, _ =>
      match asNum a, asNum b with
      | some x, some y => .ok (.float (x + y))
      | _, _ => .error .typeError

/-- Python binary `-` on numbers. -/
def pySub (a b : Obj) : Except Err Obj :=
  match intOf a, intOf b with
  | some i, some j => .ok (.int (i - j))
  | _, _ =>
    match asNum a, asNum b with
    | some x, some y => .ok (.float (x - y))
    | _, _ => .error .typeError

/-- Python `*`: numbers multiply (int-like * int-like stays int), a string
times an int-like repeats the string; anything else raises TypeError. -/
def pyMul (a b : Obj) : Except Err Obj :=
  match a, b with
  | .str s, _ =>
    match intOf b with
    | some j => .ok (.str (String.join (List.replicate j.toNat s)))
    | Option.none => .error .typeError
  | _, .str s =>
    match intOf a with
    | some i => .ok (.str (String.join (List.replicate i.toNat s)))
    | Option.none => .error .typeError
  | _, _ =>
    match intOf a, intOf b with
    | some i, some j => .ok (.int (i * j))
    | _, _ =>
      match asNum a, asNum b with
      | some x, some y => .ok (.float (x * y))
      | _, _ => .error .typeError

/-- Python `/` (true division): always produces a float on numbers,
raises ZeroDivisionError on a zero divisor, TypeError on non-numbers. -/
def pyDiv (a b : Obj) : Except Err Obj :=
  match asNum a, asNum b with
  | some x, some y =>
    if y == 0 then .error .zeroDivisionError else .ok (.float (x / y))
  | _, _ => .error .typeError

/-- Python unary `-` on numbers. -/
def pyNeg (a : Obj) : Except Err Obj :=
  match a with
  | .int n => .ok (.int (-n))
  | .float q => .ok (.float (-q))
  | .bool b => .ok (.int (if b then -1 else 0))
  | _ => .error .typeError

/-- Python `<=`: numeric comparison on numbers, lexicographic on strings,
TypeError otherwise (e.g. on Pair objects, which define no ordering). -/
def pyLe (a b : Obj) : Except Err Bool :=
  match asNum a, asNum b with
  | some x, some y => .ok (decide (x ≤ y))
  | _, _ =>
    match a, b with
    | .str s, .str t => .ok (decide (s ≤ t))
    | _, _ => .error .typeError

/-- Python `<`. -/
def pyLt (a b : Obj) : Except Err Bool :=
  match asNum a, asNum b with
  | some x, some y => .ok (decide (x < y))
  | _, _ =>
    match a, b with
    | .str s, .str t => .ok (decide (s < t))
    | _, _ => .error .typeError

/-- Python `>=`. -/
def pyGe (a b : Obj) : Except Err Bool := pyLe b a

/-- Python `>`. -/
def pyGt (a b : Obj) : Except Err Bool := pyLt b a

/-- Python truthiness, as used by `not`: zero numbers, empty strings,
empty lists and None are falsy; Pair, Function and builtin objects are
truthy. -/
def pyTruthy : Obj → Bool
  | .int n => n != 0
  | .float q => q != 0
  | .bool b => b
  | .str s => s ≠ ""
  | .none => false
  | .list l => !l.isEmpty
  | .pair _ _ => true
  | .func _ _ _ => true
  | .builtin _ => true

/-- Python `len()`: defined for lists and strings, TypeError otherwise. -/
def pyLen : Obj → Except Err Nat
  | .list l => .ok l.length
  | .str s => .ok s.length
  | _ => .error .typeError

/-- Python subscription `o[i]` for a non-negative index: list indexing,
string indexing (yielding a one-character string), IndexError when out of
range, TypeError on non-subscriptable objects. -/
def pyIndex (o : Obj) (i : Nat) : Except Err Obj :=
  match o with
  | .list l =>
    match l[i]? with
    | some v => .ok v
    | Option.none => .error .indexError
  | .str s =>
    match s.data[i]? with
    | some c => .ok (.str (String.mk [c]))
    | Option.none => .error .indexError
  | _ => .error .typeError

/-- Python iteration (`for x in o`): lists yield their elements, strings
their characters as one-character strings; other objects used by the
interpreter are not iterable (TypeError). -/
def pyIterate : Obj → Except Err (List Obj)
  | .list l => .ok l
  | .str s => .ok (s.data.map (fun c => .str (String.mk [c])))
  | _ => .error .typeError

/-- `tree[i]` on an expression tree already matched as a Python list:
IndexError when past the end. -/
def objGet (l : List Obj) (i : Nat) : Except Err Obj :=
  match l[i]? with
  | some v => .ok v
  | Option.none => .error .indexError

/-- Lookup in a Python dict (modelled as an association list; dict key
equality is Python `==`, so the keys `1`, `1.0` and `True` coincide). -/
def dictFind (d : List (Obj × Obj)) (k : Obj) : Option Obj :=
  (d.find? (fun kv => pyEq kv.1 k)).map (fun kv => kv.2)

/-- `d[k] = v` on a Python dict: overwrite the entry whose key compares
`==` to `k`, else append a new entry. -/
def dictSet (d : List (Obj × Obj)) (k : Obj) (v : Obj) : List (Obj × Obj) :=
  match d with
  | [] => [(k, v)]
  | kv :: rest =>
    if pyEq kv.1 k then (kv.1, v) :: rest else kv :: dictSet rest k v

/-- `del d[k]` on a Python dict: drop the entry whose key compares `==`
to `k`. -/
def dictRemove (d : List (Obj × Obj)) (k : Obj) : List (Obj × Obj) :=
  match d with
  | [] => []
  | kv :: rest =>
    if pyEq kv.1 k then rest else kv :: dictRemove rest k

/- ## Tokenization (src/lisp_interpreter.py, `tokenize`) -/

/-- The index of the next newline at or after `i` (or the end of the
source): the `while ... != "\n"` skips in `tokenize`.  The index loops of
the tokenizer are written as structural recursion on a step budget; each
loop advances its index by at least one, so the budget
`src.length + 1` passed by the callers can never run out. -/
def skipToNewline (src : List Char) : Nat → Nat → Nat
  | 0, i => i
  | steps + 1, i =>
    if h : i < src.length then
      if src[i] = '\n' then i else skipToNewline src steps (i + 1)
    else i

/-- The inner scan of `tokenize` that finds the end of an atom starting at
`e`: advance while the character is not a space, parenthesis or newline;
on `#`, skip to the next newline and stop (the `break`). -/
def atomScan (src : List Char) : Nat → Nat → Nat
  | 0, e => e
  | steps + 1, e =>
    if h : e < src.length then
      if src[e] = ' ' ∨ src[e] = ')' ∨ src[e] = '(' ∨ src[e] = '\n' then e
      else if src[e] = '#' then skipToNewline src (src.length + 1) e
      else atomScan src steps (e + 1)
    else e

/-- The main loop of `tokenize`, from position `i`: parentheses are
single-character tokens, `#` skips to the next newline, and otherwise an
atom is scanned with `atomScan` and the slice `source[start:end]` is
emitted whenever it is non-empty. -/
def tokenizeAux (src : List Char) : Nat → Nat → List (List Char)
  | 0, _ => []
  | steps + 1, i =>
    if h : i < src.length then
      if src[i] = '(' then ['('] :: tokenizeAux src steps (i + 1)
      else if src[i] = ')' then [')'] :: tokenizeAux src steps (i + 1)
      else if src[i] = '#' then
        tokenizeAux src steps (skipToNewline src (src.length + 1) i)
      else
        let e := atomScan src (src.length + 1) i
        if i ≠ e then ((src.drop i).take (e - i)) :: tokenizeAux src steps e
        else tokenizeAux src steps (i + 1)
    else []

/-- `tokenize(source)`: split the source text into tokens. -/
def tokenize (source : String) : List (List Char) :=
  tokenizeAux source.data (source.data.length + 1) 0

/- ## Atom classification (`number_or_symbol`) -/

def digitVal (c : Char) : Option Nat :=
  if c.isDigit then some (c.toNat - '0'.toNat) else Option.none

/-- A run of decimal digits possibly separated by single underscores, as
Python's `int()` and `float()` accept; `lastUnd` is true when the previous
character was an underscore (or at the start, so the run must begin with a
digit).  Returns the accumulated value. -/
def digitsLoop : List Char → Bool → Nat → Option Nat
  | [], lastUnd, acc => if lastUnd then Option.none else some acc
  | c :: rest, lastUnd, acc =>
    match digitVal c with
    | some d => digitsLoop rest false (acc * 10 + d)
    | Option.none =>
      if c = '_' ∧ ¬lastUnd then digitsLoop rest true acc else Option.none

/-- As `digitsLoop`, also counting the digits (for fractional parts). -/
def fracLoop : List Char → Bool → Nat → Nat → Option (Nat × Nat)
  | [], lastUnd, acc, cnt => if lastUnd then Option.none else some (acc, cnt)
  | c :: rest, lastUnd, acc, cnt =>
    match digitVal c with
    | some d => fracLoop rest false (acc * 10 + d) (cnt + 1)
    | Option.none =>
      if c = '_' ∧ ¬lastUnd then fracLoop rest true acc cnt else Option.none

/-- Python `int(x)` on a token: an optional sign followed by digits
(with optional single underscore separators); anything else raises
ValueError, i.e. yields `none`.  (Surrounding whitespace, which Python
would strip, cannot occur inside a token.) -/
def pyIntParse (cs : List Char) : Option Int :=
  match cs with
  | '-' :: rest => (digitsLoop rest true 0).map (fun n => -(n : Int))
  | '+' :: rest => (digitsLoop rest true 0).map (fun n => (n : Int))
  | _ => (digitsLoop cs true 0).map (fun n => (n : Int))

/-- The unsigned part of Python `float()`: digits with an optional
fractional part, or a bare fractional part, with an optional exponent.
The value is exact (Python's binary rounding is abstracted to the exact
rational; the `inf`/`nan` spellings are not modelled, and no claim
involves them). -/
def pyFloatCore (cs : List Char) : Option Rat :=
  let mant := cs.takeWhile (fun c => c ≠ 'e' ∧ c ≠ 'E')
  let expPart := cs.dropWhile (fun c => c ≠ 'e' ∧ c ≠ 'E')
  let expVal : Option Int :=
    match expPart with
    | [] => some 0
    | _ :: rest => pyIntParse rest
  match expVal with
  | Option.none => Option.none
  | some ex =>
    let ip := mant.takeWhile (fun c => c ≠ '.')
    let fp := mant.dropWhile (fun c => c ≠ '.')
    match fp with
    | [] =>
      -- no decimal point: digits are required
      (digitsLoop ip true 0).map (fun n => (n : Rat) * (10 : Rat) ^ ex)
    | _ :: fracCs =>
      let ipVal : Option Nat :=
        if ip.isEmpty then
          -- ".5" style: the integer part may be empty only when the
          -- fractional part is not
          if fracCs.isEmpty then Option.none else some 0
        else digitsLoop ip true 0
      let frVal : Option (Nat × Nat) :=
        if fracCs.isEmpty then some (0, 0) else fracLoop fracCs true 0 0
      match ipVal, frVal with
      | some n, some (f, cnt) =>
        some (((n : Rat) + (f : Rat) / (10 : Rat) ^ cnt) * (10 : Rat) ^ ex)
      | _, _ => Option.none

/-- Python `float(x)` on a token: optional sign, then `pyFloatCore`. -/
def pyFloatParse (cs : List Char) : Option Rat :=
  match cs with
  | '-' :: rest => (pyFloatCore rest).map (fun q => -q)
  | '+' :: rest => pyFloatCore rest
  | _ => pyFloatCore cs

/-- `number_or_symbol(x)`: try `int(x)`, then `float(x)`, else keep the
string as a symbol. -/
def number_or_symbol (tok : List Char) : Obj :=
  match pyIntParse tok with
  | some n => .int n
  | Option.none =>
    match pyFloatParse tok with
    | some q => .float q
    | Option.none => .str (String.mk tok)

/- ## Parsing (`parse`) -/

def lparenTok : List Char := ['(']
def rparenTok : List Char := [')']
def assignTok : List Char := [':', '=']

/-- `tokens[beg : i+1]`. -/
def tokenSlice (tokens : List (List Char)) (beg fin : Nat) : List (List Char) :=
  (tokens.drop beg).take (fin - beg)

/-- The interior scan of `parse`, parameterized by `pf`, the recursive
`parse` call applied to a sub-slice: `i` runs over
`range(1, len(tokens)-1)` with a stack of `(`-indices (head = top of the
Python list); a `)` that empties the stack closes one complete
sub-expression, which is parsed recursively with `pf`; a bare token at
depth zero is classified and appended.  `steps` is a structural loop
budget; the caller passes `tokens.length`, which covers every index the
loop can visit. -/
def parseLoop (pf : List (List Char) → Except Err Obj)
    (tokens : List (List Char)) : Nat → Nat → List Nat → List Obj →
    Except Err (List Nat × List Obj)
  | 0, _, stack, parsed => .ok (stack, parsed)
  | steps + 1, i, stack, parsed =>
    if tokens.length - 1 ≤ i then .ok (stack, parsed)
    else
      match tokens[i]? with
      | Option.none => .ok (stack, parsed)
      | some t =>
        if t = lparenTok then parseLoop pf tokens steps (i + 1) (i :: stack) parsed
        else if t = rparenTok then
          match stack with
          | [] => .error .syntaxError
          | [beg] =>
            match pf (tokenSlice tokens beg (i + 1)) with
            | .error e => .error e
            | .ok sub => parseLoop pf tokens steps (i + 1) [] (parsed ++ [sub])
          | _ :: s1 => parseLoop pf tokens steps (i + 1) s1 parsed
        else if stack.isEmpty then
          parseLoop pf tokens steps (i + 1) stack (parsed ++ [number_or_symbol t])
        else parseLoop pf tokens steps (i + 1) stack parsed

/-- `parse(tokens)`, fuelled for the recursion on token sub-slices (each
recursive call is on a strictly shorter slice, so `tokens.length + 1` fuel
always suffices; see `parse`).  Follows the source line by line: the
immediate SyntaxError checks on the first and last token, the single-token
case, the three-token `( atom )` shortcut — which returns the RAW token
`tokens[1]` as a one-element list, not the classified atom — and the
general parenthesis-depth walk. -/
def parseF : Nat → List (List Char) → Except Err Obj
  | 0, _ => .error .recursionError
  | fuel + 1, tokens =>
    match h0 : tokens with
    | [] => .error .indexError  -- `tokens[0]` on an empty list
    | t0 :: _ =>
      if t0 = rparenTok ∨ tokens.getLast (by simp [h0]) = lparenTok ∨ t0 = assignTok then
        .error .syntaxError
      else if tokens.length = 1 then
        if t0 = lparenTok ∨ t0 = rparenTok then .error .syntaxError
        else .ok (number_or_symbol t0)
      else if tokens.length = 3 ∧ t0 = lparenTok ∧ tokens[2]? = some rparenTok then
        match tokens[1]? with
        | some t1 => .ok (.list [.str (String.mk t1)])
        | Option.none => .error .indexError
      else
        match parseLoop (parseF fuel) tokens tokens.length 1 [] [] with
        | .error e => .error e
        | .ok (stack, parsed) =>
          if stack.isEmpty then .ok (.list parsed) else .error .syntaxError

/-- `parse(tokens)`: since every recursive `parse` call is on a strictly
shorter token slice, `tokens.length + 1` fuel can never run out. -/
def parse (tokens : List (List Char)) : Except Err Obj :=
  parseF (tokens.length + 1) tokens

/- ## Built-in functions that do not re-enter the evaluator -/

/-- Python `sum(args)` starting from the int 0. -/
def pySumFrom : Obj → List Obj → Except Err Obj
  | acc, [] => .ok acc
  | acc, a :: rest => do
    let acc1 ← pyAdd acc a
    pySumFrom acc1 rest

def pySum (args : List Obj) : Except Err Obj := pySumFrom (.int 0) args

/-- The `-` builtin: unary negation, else `args[0] - sum(args[1:])`
(IndexError on an empty argument list, as in Python). -/
def minusB (args : List Obj) : Except Err Obj :=
  if args.length = 1 then do
    let a ← objGet args 0
    pyNeg a
  else do
    let a ← objGet args 0
    let s ← pySum (args.drop 1)
    pySub a s

/-- `multiply(args)`: left fold of `*` from 1. -/
def multiply (args : List Obj) : Except Err Obj :=
  pyFoldMul (.int 1) args
where
  pyFoldMul : Obj → List Obj → Except Err Obj
    | acc, [] => .ok acc
    | acc, a :: rest => do
      let acc1 ← pyMul acc a
      pyFoldMul acc1 rest

/-- `divide(args)`: start from `args[0]` and fold `/=` over the rest. -/
def divide (args : List Obj) : Except Err Obj := do
  let a ← objGet args 0
  go a (args.drop 1)
where
  go : Obj → List Obj → Except Err Obj
    | acc, [] => .ok acc
    | acc, a :: rest => do
      let acc1 ← pyDiv acc a
      go acc1 rest

/-- `equal(args)`: every later argument `==` the first. -/
def equal (args : List Obj) : Except Err Obj := do
  let base ← objGet args 0
  .ok (.bool (go base (args.drop 1)))
where
  go (base : Obj) : List Obj → Bool
    | [] => true
    | a :: rest => if !pyEq a base then false else go base rest

/-- The shared shape of the four ordering builtins: scan consecutive
pairs with `cmp` and return False as soon as it holds. -/
def chainCmp (cmp : Obj → Obj → Except Err Bool) : List Obj → Except Err Obj
  | a :: b :: rest => do
    let r ← cmp a b
    if r then .ok (.bool false) else chainCmp cmp (b :: rest)
  | _ => .ok (.bool true)

/-- `decreasing(args)` (`>`): False when some `args[i] <= args[i+1]`. -/
def decreasing (args : List Obj) : Except Err Obj := chainCmp pyLe args

/-- `nonincreasing(args)` (`>=`): False when some `args[i] < args[i+1]`. -/
def nonincreasing (args : List Obj) : Except Err Obj := chainCmp pyLt args

/-- `increasing(args)` (`<`): False when some `args[i] >= args[i+1]`. -/
def increasing (args : List Obj) : Except Err Obj := chainCmp pyGe args

/-- `nondecreasing(args)` (`<=`): False when some `args[i] > args[i+1]`. -/
def nondecreasing (args : List Obj) : Except Err Obj := chainCmp pyGt args

/-- `flip(args)` (the `not` builtin): exactly one argument, logically
inverted by Python `not` (truthiness). -/
def flip (args : List Obj) : Except Err Obj :=
  if args.length ≠ 1 then .error .evalError
  else do
    let a ← objGet args 0
    .ok (.bool (!pyTruthy a))

/-- `pair_assign(args)` (the `pair` builtin). -/
def pair_assign (args : List Obj) : Except Err Obj :=
  if args.length ≠ 2 then .error .evalError
  else do
    let a ← objGet args 0
    let b ← objGet args 1
    .ok (.pair a b)

/-- The `head` builtin (the second `def head` in the source, which
shadows the first). -/
def headB (args : List Obj) : Except Err Obj :=
  match args with
  | [.pair h _] => .ok h
  | _ => .error .evalError

/-- The `tail` builtin. -/
def tailB (args : List Obj) : Except Err Obj :=
  match args with
  | [.pair _ t] => .ok t
  | _ => .error .evalError

/-- `create_list(args)` (the `list` builtin): right fold into Pairs. -/
def create_list : List Obj → Obj
  | [] => .none
  | a :: rest => .pair a (create_list rest)

/-- `is_linked_list(args)`: None, or a Pair whose tail is one. -/
def is_linked_list : Obj → Bool
  | .none => true
  | .pair _ t => is_linked_list t
  | _ => false

/-- `length(args)`: raises LispEvaluationError off the Nil/Pair spine. -/
def lengthB : Obj → Except Err Nat
  | .none => .ok 0
  | .pair _ t => do
    let n ← lengthB t
    .ok (n + 1)
  | _ => .error .evalError

/-- `retrieve_n(linked_list, idx)` (the `nth` builtin), with the index as
a Python object exactly as in the source: for a non-Pair the guard
`idx >= length(linked_list)` runs `length` (which can itself raise);
`idx == 0` returns `.head` (AttributeError on a non-Pair); a Pair that is
not a well-formed list raises; otherwise recurse on `(tail, idx - 1)`. -/
def retrieve_n : Obj → Obj → Except Err Obj
  | .pair h t, idx =>
    if pyEq idx (.int 0) then .ok h
    else if !is_linked_list (.pair h t) then .error .evalError
    else
      match pySub idx (.int 1) with
      | .error e => .error e
      | .ok idx1 => retrieve_n t idx1
  | other, idx => do
    let n ← lengthB other
    let ge ← pyGe idx (.int (n : Int))
    if ge then .error .evalError
    else
      if pyEq idx (.int 0) then .error .attributeError  -- `.head` on a non-Pair
      else .error .attributeError                        -- `.tail` on a non-Pair

/-- `merge(first, second)`: re-link a copy of `first`'s spine onto
`second` (which is shared, not copied, by `merge` itself); `.head` on a
non-Pair, non-None `first` is an AttributeError. -/
def merge : Obj → Obj → Except Err Obj
  | .none, second => .ok second
  | .pair h t, second => do
    let rest ← merge t second
    .ok (.pair h rest)
  | _, _ => .error .attributeError

/-- `duplicate(args)`: structural copy of a chain's spine; raises
LispEvaluationError on a non-chain. -/
def duplicate : Obj → Except Err Obj
  | .none => .ok .none
  | .pair h t => do
    let rest ← duplicate t
    .ok (.pair h rest)
  | _ => .error .evalError

/-- `concat(args)`: no arguments yield None, exactly one argument is
returned as-is, otherwise the first two chains are duplicated and merged
and the recursion folds in the rest; the bare `except:` around the
recursive call returns the partial `joined_list` when the recursion
raises (e.g. a later argument is not a chain). -/
def concat : List Obj → Except Err Obj
  | [] => .ok .none
  | [c] => .ok c
  | c1 :: c2 :: rest => do
    let d1 ← duplicate c1
    let d2 ← duplicate c2
    let j ← merge d1 d2
    match concat (j :: rest) with
    | .ok v => .ok v
    | .error _ => .ok j
termination_by args => args.length

/-- `factorial(args)`: the builtin table passes the whole Python argument
LIST to `factorial`, whose `args == 1` test is therefore always False and
whose `args - 1` then raises TypeError (a list minus an int). -/
def factorialB (args : List Obj) : Except Err Obj :=
  if pyEq (.list args) (.int 1) then .ok (.int 1) else .error .typeError

/-- `begin(args)`: `args[-1]` (IndexError when empty). -/
def beginB (args : List Obj) : Except Err Obj :=
  match args.getLast? with
  | some v => .ok v
  | Option.none => .error .indexError

/-- The `Lisp_builtins` table.  `@t`, `@f` and `nil` map to plain values;
every other entry is a callable, represented by its name. -/
def Lisp_builtins : List (String × Obj) :=
  [("+", .builtin "+"), ("-", .builtin "-"), ("*", .builtin "*"),
   ("/", .builtin "/"), ("=?", .builtin "=?"), (">", .builtin ">"),
   (">=", .builtin ">="), ("<", .builtin "<"), ("<=", .builtin "<="),
   ("@t", .bool true), ("@f", .bool false), ("not", .builtin "not"),
   ("pair", .builtin "pair"), ("head", .builtin "head"),
   ("tail", .builtin "tail"), ("nil", .none), ("list", .builtin "list"),
   ("list?", .builtin "list?"), ("length", .builtin "length"),
   ("nth", .builtin "nth"), ("concat", .builtin "concat"),
   ("map", .builtin "map"), ("filter", .builtin "filter"),
   ("reduce", .builtin "reduce"), ("begin", .builtin "begin"),
   ("factorial", .builtin "factorial")]

/-- `var in Lisp_builtins` / `Lisp_builtins[var]`: dict lookup by Python
`==` against the string keys. -/
def builtinFind (var : Obj) : Option Obj :=
  (Lisp_builtins.find? (fun kv => pyEq var (.str kv.1))).map (fun kv => kv.2)

/- ## Environments -/

/-- The `parent` attribute of an `Environment`: absent (None), another
`Environment` (by store id), or — in a branch of `retrieve` that no code
path ever constructs — a raw dict. -/
inductive Parent where
  | none
  | env (id : Nat)
  | dict (d : List (Obj × Obj))
deriving Repr

/-- An `Environment` object: its own `var_bind` dict and its parent. -/
structure EnvR where
  var_bind : List (Obj × Obj)
  parent : Parent
deriving Repr

/-- All `Environment` objects alive in the interpreter, indexed by id;
mutation is modelled by replacing an entry. -/
abbrev Store := List EnvR

/-- Replace the environment object at id `i`. -/
def storeModify (store : Store) (i : Nat) (f : EnvR → EnvR) : Store :=
  match store[i]? with
  | some e => store.set i (f e)
  | Option.none => store

/-- `Environment.retrieve(var)`, with fuel for the walk up the parent
chain (parent ids always precede their children in the store, so
`store.length + 1` fuel can never run out on stores the evaluator
builds): own bindings first, then a raw-dict parent's entries, then the
builtin table, and only then the parent `Environment`; LispNameError at
the end of the chain. -/
def retrieve : Nat → Store → Nat → Obj → Except Err Obj
  | 0, _, _, _ => .error .recursionError
  | k + 1, store, envId, var =>
    match store[envId]? with
    | Option.none => .error .invalidRef
    | some e =>
      match dictFind e.var_bind var with
      | some v => .ok v
      | Option.none =>
        match e.parent with
        | .dict d =>
          match dictFind d var with
          | some v => .ok v
          | Option.none =>
            match builtinFind var with
            | some v => .ok v
            | Option.none => .error .nameError
        | p =>
          match builtinFind var with
          | some v => .ok v
          | Option.none =>
            match p with
            | .env pid => retrieve k store pid var
            | _ => .error .nameError

/-- The loop of `func_eval` that binds `params[i] = args[i]` for
`i in range(len(args))` into a fresh `var_bind` dict. -/
def bindParams (params : Obj) : List Obj → Nat → List (Obj × Obj) →
    Except Err (List (Obj × Obj))
  | [], _, acc => .ok acc
  | a :: rest, i, acc => do
    let key ← pyIndex params i
    bindParams params rest (i + 1) (dictSet acc key a)

/- ## The evaluator

Every function below takes a fuel argument, decremented on every call
inside the mutual block; running out models Python's recursion limit
(RecursionError).  Results pair the value with the updated store, since
environments are mutable shared state. -/

/-- `"function"`, as an `Obj`, for the special-form dispatch. -/
def kwFunction : Obj := .str "function"

/- The loops below are parameterized by `ev`, the recursive `evaluate`
call at the remaining recursion budget; `evaluate` itself is structural
recursion on the budget and passes `evaluate fuel` for `ev`. -/

/-- The type of the recursive `evaluate` call handed to the loops. -/
abbrev EvalFn := Obj → Nat → Store → Except Err (Obj × Store)

/-- The `and` loop: return False on the first element whose value
`== False`, else True. -/
def evalAndList (ev : EvalFn) : List Obj → Nat → Store →
    Except Err (Obj × Store)
  | [], _, store => .ok (.bool true, store)
  | t :: ts, envId, store => do
    let (v, s1) ← ev t envId store
    if pyEq v (.bool false) then .ok (.bool false, s1)
    else evalAndList ev ts envId s1

/-- The `or` loop: return True on the first element whose value
`== True`, else False. -/
def evalOrList (ev : EvalFn) : List Obj → Nat → Store →
    Except Err (Obj × Store)
  | [], _, store => .ok (.bool false, store)
  | t :: ts, envId, store => do
    let (v, s1) ← ev t envId store
    if pyEq v (.bool true) then .ok (.bool true, s1)
    else evalOrList ev ts envId s1

/-- The argument loop of function application: evaluate each remaining
element left to right. -/
def evalArgs (ev : EvalFn) : List Obj → Nat → Store →
    Except Err (List Obj × Store)
  | [], _, store => .ok ([], store)
  | t :: ts, envId, store => do
    let (v, s1) ← ev t envId store
    let (vs, s2) ← evalArgs ev ts envId s1
    .ok (v :: vs, s2)

/-- The `let` binding loop: each `(name valueExpr)` pair is evaluated in
the OUTER environment and collected into the child scope's dict.  Python
evaluates the right-hand side `evaluate(i[1], env)` before the target
subscript `i[0]`. -/
def letLoop (ev : EvalFn) : List Obj → Nat → Store → List (Obj × Obj) →
    Except Err (List (Obj × Obj) × Store)
  | [], _, store, acc => .ok (acc, store)
  | b :: bs, envId, store, acc => do
    let vexpr ← pyIndex b 1
    let (v, s1) ← ev vexpr envId store
    let key ← pyIndex b 0
    letLoop ev bs envId s1 (dictSet acc key v)

/-- The `set!` walk: from `env` up the parent chain to the first scope
whose own dict binds the name; evaluate the value expression in the
ORIGINAL `env` and overwrite there; LispNameError when `parent` is None.
A raw-dict parent is assigned to `current_env`, whose missing `var_bind`
attribute then raises AttributeError on the next iteration.  The walk is
structural on a step budget; parents always precede children in the
store, so the `store.length + 1` the caller passes cannot run out. -/
def setWalk (ev : EvalFn) (key : Obj) (elems : List Obj) (origEnv : Nat) :
    Nat → Nat → Store → Except Err (Obj × Store)
  | 0, _, _ => .error .invalidRef
  | steps + 1, curId, store =>
    match store[curId]? with
    | Option.none => .error .invalidRef
    | some e =>
      if (dictFind e.var_bind key).isSome then do
        let vexpr ← objGet elems 2
        let (v, s1) ← ev vexpr origEnv store
        .ok (v, storeModify s1 curId
              (fun en => { en with var_bind := dictSet en.var_bind key v }))
      else
        match e.parent with
        | .none => .error .nameError
        | .env pid => setWalk ev key elems origEnv steps pid store
        | .dict _ => .error .attributeError

/-- `func_eval(function_obj, function_args)`: a fresh child scope of the
closure's captured environment, the parameters bound positionally, and
the body evaluated there.  (Note there is no arity check here — `filter`
calls it directly.) -/
def funcEval (ev : EvalFn) (funcObj : Obj) (args : List Obj) (store : Store) :
    Except Err (Obj × Store) :=
  match funcObj with
  | .func body params capturedEnv => do
    let bind ← bindParams params args 0 []
    ev body store.length (store ++ [⟨bind, .env capturedEnv⟩])
  | _ => .error .attributeError  -- `.env` attribute on a non-Function

/-- The `map` loop, counting down the `k` iterations left of
`for i in range(length(lis))` (so the current element index
`length - i - 1` is `k - 1`): builds the result back to front,
re-entering `evaluate` on `[function, nth(lis, k-1)]` with the DEFAULT
environment (the `evaluate` call in `map` passes no `env` argument). -/
def mapLoop (ev : EvalFn) (f lis : Obj) : Nat → Obj → Store →
    Except Err (Obj × Store)
  | 0, res, store => .ok (res, store)
  | k + 1, res, store => do
    let elem ← retrieve_n lis (.int (k : Int))
    let (v, s1) ← ev (.list [f, elem]) 0 store
    mapLoop ev f lis k (.pair v res) s1

/-- The `reduce` loop, counting down the `k` iterations left of
`for i in range(length(lis))` (so the current index is `n - k`): folds
left, re-entering `evaluate` on `[function, temp, nth(lis, n-k)]` with
the DEFAULT environment. -/
def reduceLoop (ev : EvalFn) (f lis : Obj) (n : Nat) : Nat → Obj → Store →
    Except Err (Obj × Store)
  | 0, temp, store => .ok (temp, store)
  | k + 1, temp, store => do
    let elem ← retrieve_n lis (.int ((n - (k + 1) : Nat) : Int))
    let (v, s1) ← ev (.list [f, temp, elem]) 0 store
    reduceLoop ev f lis n k v s1

/-- `filter(function, lis)`: note `function not in Lisp_builtins` tests
the argument against the table's string KEYS, so every non-Function
callable (in particular every builtin function object) fails the check
and raises LispEvaluationError. -/
def filterF (ev : EvalFn) : Obj → Obj → Store → Except Err (Obj × Store)
  | f, lis, store =>
    if ((match f with | .func _ _ _ => false | _ => true)
        && !(Lisp_builtins.any (fun kv => pyEq f (.str kv.1)))) then
      .error .evalError
    else
      match lis with
      | .none => .ok (.none, store)
      | .pair hd tl =>
        match funcEval ev f [hd] store with
        | .error e => .error e
        | .ok (r, s1) =>
          if pyEq r (.bool true) then
            match filterF ev f tl s1 with
            | .error e => .error e
            | .ok (rest, s2) => .ok (.pair hd rest, s2)
          else filterF ev f tl s1
      | _ => .error .evalError

/-- Dispatch of a builtin callable on its evaluated argument list. -/
def applyBuiltin (ev : EvalFn) (name : String) (args : List Obj)
    (store : Store) : Except Err (Obj × Store) :=
  match name with
  | "+" => do let v ← pySum args; .ok (v, store)
  | "-" => do let v ← minusB args; .ok (v, store)
  | "*" => do let v ← multiply args; .ok (v, store)
  | "/" => do let v ← divide args; .ok (v, store)
  | "=?" => do let v ← equal args; .ok (v, store)
  | ">" => do let v ← decreasing args; .ok (v, store)
  | ">=" => do let v ← nonincreasing args; .ok (v, store)
  | "<" => do let v ← increasing args; .ok (v, store)
  | "<=" => do let v ← nondecreasing args; .ok (v, store)
  | "not" => do let v ← flip args; .ok (v, store)
  | "pair" => do let v ← pair_assign args; .ok (v, store)
  | "head" => do let v ← headB args; .ok (v, store)
  | "tail" => do let v ← tailB args; .ok (v, store)
  | "list" => .ok (create_list args, store)
  | "list?" => do
    let a ← objGet args 0
    .ok (.bool (is_linked_list a), store)
  | "length" => do
    let a ← objGet args 0
    let n ← lengthB a
    .ok (.int (n : Int), store)
  | "nth" => do
    let a ← objGet args 0
    let i ← objGet args 1
    let v ← retrieve_n a i
    .ok (v, store)
  | "concat" => do let v ← concat args; .ok (v, store)
  | "map" => do
    let f ← objGet args 0
    let l ← objGet args 1
    let n ← lengthB l
    mapLoop ev f l n .none store
  | "filter" => do
    let f ← objGet args 0
    let l ← objGet args 1
    filterF ev f l store
  | "reduce" => do
    let f ← objGet args 0
    let l ← objGet args 1
    let base ← objGet args 2
    let n ← lengthB l
    reduceLoop ev f l n n base store
  | "begin" => do let v ← beginB args; .ok (v, store)
  | "factorial" => do let v ← factorialB args; .ok (v, store)
  | _ => .error .invalidRef  -- no other callable is in the table

/-- Lines 447-451 of the source: a Function is applied through
`func_eval` after the exact-arity check; anything else is called
directly, which for a non-callable (int, float, bool, None, Pair) is a
host TypeError. -/
def applyFuncObj (ev : EvalFn) (funcObj : Obj) (args : List Obj)
    (store : Store) : Except Err (Obj × Store) :=
  match funcObj with
  | .func _ params _ => do
    let n ← pyLen params
    if args.length = n then funcEval ev funcObj args store
    else .error .evalError
  | .builtin name => applyBuiltin ev name args store
  | _ => .error .typeError

/-- `evaluate(tree, env)` from the source, dispatching on the runtime
type of `tree`: ints, floats, Function and Pair objects evaluate to
themselves; a Python list is an S-expression (special forms, then
application); callables and None evaluate to themselves; everything else
(strings, but also booleans, which the first check misses because
`type(True)` is `bool`, not `int`) is looked up with
`env.retrieve`. -/
def evaluate : Nat → Obj → Nat → Store → Except Err (Obj × Store)
  | 0, _, _, _ => .error .recursionError
  | fuel + 1, tree, envId, store =>
    match tree with
    | .int _ => .ok (tree, store)
    | .float _ => .ok (tree, store)
    | .func _ _ _ => .ok (tree, store)
    | .pair _ _ => .ok (tree, store)
    | .list elems =>
      if elems.isEmpty then .error .evalError
      else
        match elems with
        | [] => .error .evalError
        | h :: rest =>
          if (match h with | .int _ => true | _ => false) then .error .evalError
          else if pyEq h kwFunction then do
            let body ← objGet elems 2
            let params ← objGet elems 1
            .ok (.func body params envId, store)
          else if pyEq h (.str ":=") then do
            let target ← objGet elems 1
            match target with
            | .list l => do
              let fnBody ← objGet elems 2
              let fn := Obj.func fnBody (.list (l.drop 1)) envId
              let key ← objGet l 0
              .ok (fn, storeModify store envId
                    (fun e => { e with var_bind := dictSet e.var_bind key fn }))
            | _ => do
              let vexpr ← objGet elems 2
              let (v, s1) ← evaluate fuel vexpr envId store
              .ok (v, storeModify s1 envId
                    (fun e => { e with var_bind := dictSet e.var_bind target v }))
          else if pyEq h (.str "if") then do
            let cexpr ← objGet elems 1
            let (c, s1) ← evaluate fuel cexpr envId store
            if pyEq c (.bool true) then do
              let texpr ← objGet elems 2
              evaluate fuel texpr envId s1
            else do
              let eexpr ← objGet elems 3
              evaluate fuel eexpr envId s1
          else if pyEq h (.str "and") then
            evalAndList (evaluate fuel) rest envId store
          else if pyEq h (.str "or") then
            evalOrList (evaluate fuel) rest envId store
          else if pyEq h (.str "del") then do
            let key ← objGet elems 1
            match store[envId]? with
            | Option.none => .error .invalidRef
            | some e =>
              match dictFind e.var_bind key with
              | some v => .ok (v, storeModify store envId
                  (fun en => { en with var_bind := dictRemove en.var_bind key }))
              | Option.none => .error .nameError
          else if pyEq h (.str "let") then do
            let bindingsObj ← objGet elems 1
            let bs ← pyIterate bindingsObj
            let (bind, s1) ← letLoop (evaluate fuel) bs envId store []
            let bodyExpr ← objGet elems 2
            -- func_env is created before the loop in the source, but no
            -- code can observe it until the body runs, so allocating it
            -- here (after the bindings are evaluated) is equivalent.
            evaluate fuel bodyExpr s1.length (s1 ++ [⟨bind, .env envId⟩])
          else if pyEq h (.str "set!") then do
            let key ← objGet elems 1
            setWalk (evaluate fuel) key elems envId (store.length + 1) envId store
          else do
            let (funcObj, s1) ← evaluate fuel h envId store
            let (args, s2) ← evalArgs (evaluate fuel) rest envId s1
            applyFuncObj (evaluate fuel) funcObj args s2
    | .builtin _ => .ok (tree, store)  -- callable(tree) == True
    | .none => .ok (tree, store)       -- tree == None
    | .str _ => do
      let v ← retrieve (store.length + 1) store envId tree
      .ok (v, store)
    | .bool _ => do
      -- booleans are NOT caught by `type(tree) in [int, float, ...]`
      -- (`type(True)` is `bool`) nor by `callable(tree) or tree == None`,
      -- so they fall through to the name lookup
      let v ← retrieve (store.length + 1) store envId tree
      .ok (v, store)

/- ## Entry points -/

/-- The id of the single default `Environment()` of `evaluate`: Python
default argument values are created ONCE, when the `def` statement is
executed at module load, so every `evaluate(tree)` call that omits `env`
shares this one environment object. -/
def defaultEnvId : Nat := 0

/-- The store at module load: it contains exactly the default
environment (empty bindings, no parent) at `defaultEnvId`. -/
def initStore : Store := [⟨[], Parent.none⟩]

/-- `evaluate(tree)` with the `env` argument omitted. -/
def evalDefault (fuel : Nat) (tree : Obj) (store : Store) :
    Except Err (Obj × Store) :=
  evaluate fuel tree defaultEnvId store

/-- A single `evaluate(tree)` call on a fresh interpreter, with fuel far
beyond what the concrete programs below need. -/
def runEval (tree : Obj) : Except Err (Obj × Store) :=
  evaluate 100 tree defaultEnvId initStore

/- ## A heap-explicit model of `concat` / `merge` / `duplicate`

The copy-vs-alias behaviour of `concat` is about Pair OBJECT identity,
which the immutable `Obj.pair` cannot express.  Here a well-formed chain
is its spine: a list of cells, each an (address, head-value) pair, with
`Nat` addresses handed out by an allocation counter `n` (every `Pair(...)`
constructor call allocates a fresh cell).  Heads are copied by reference
in the source and stay opaque values `α` here.  Each function returns the
resulting spine together with the advanced counter. -/
namespace HeapModel

/-- The addresses of a chain's spine cells. -/
def cellIds {α : Type} (c : List (Nat × α)) : List Nat := c.map (fun x => x.1)

/-- The head values of a chain, in order (its serialization). -/
def vals {α : Type} (c : List (Nat × α)) : List α := c.map (fun x => x.2)

/-- `duplicate(args)`: `Pair(args.head, duplicate(args.tail))` — a fresh
cell per spine cell of the input. -/
def duplicate {α : Type} : List (Nat × α) → Nat → List (Nat × α) × Nat
  | [], n => ([], n)
  | (_, h) :: t, n =>
    let p := duplicate t (n + 1)
    ((n, h) :: p.1, p.2)

/-- `merge(first, second)`: `Pair(first.head, merge(first.tail, second))`
— fresh cells along `first`'s spine, with `second`'s cells shared
(aliased) as the final segment. -/
def merge {α : Type} : List (Nat × α) → List (Nat × α) → Nat →
    List (Nat × α) × Nat
  | [], second, n => (second, n)
  | (_, h) :: t, second, n =>
    let p := merge t second (n + 1)
    ((n, h) :: p.1, p.2)

/-- `concat(args)` on well-formed chains: no chains yield the empty
chain (None); exactly ONE chain is returned as-is — the very same object,
no copy; otherwise the first two chains are duplicated, merged, and the
recursion folds in the rest.  (On well-formed chains the recursive call
cannot raise, so the source's `except:` branch is dead here.) -/
def concat {α : Type} : List (List (Nat × α)) → Nat → List (Nat × α) × Nat
  | [], n => ([], n)
  | [c], n => (c, n)
  | c1 :: c2 :: rest, n =>
    let d1 := duplicate c1 n
    let d2 := duplicate c2 d1.2
    let j := merge d1.1 d2.1 d2.2
    concat (j.1 :: rest) j.2
termination_by chains _ => chains.length

end HeapModel

/- # Theorems for the claims -/

/- ## C1: environment lookup order -/

/-- Stores built by the evaluator are well-formed: every environment's
parent was allocated before it. -/
def StoreWF (store : Store) : Prop :=
  ∀ i p, (h : i < store.length) → store[i].parent = Parent.env p → p < i

/-- Whether some scope consulted along the chain from `envId` — own
bindings, or a raw-dict parent's entries — binds `var` (the builtin table
is deliberately NOT consulted). -/
def chainHasBinding : Nat → Store → Nat → Obj → Bool
  | 0, _, _, _ => false
  | k + 1, store, envId, var =>
    match store[envId]? with
    | Option.none => false
    | some e =>
      (dictFind e.var_bind var).isSome ||
      (match e.parent with
       | .dict d => (dictFind d var).isSome
       | .env p => chainHasBinding k store p var
       | .none => false)

/-- Claim C1, counterexample: the claim says a user binding for a
builtin's name in an ancestor scope shadows the builtin for lookups from
a descendant scope.  In the store where environment 0 binds `+` to the
integer 5 and environment 1 is its child with no own bindings, looking
`+` up from environment 1 returns the BUILTIN `+`, not 5: `retrieve`
consults the builtin table before recursing into the parent chain. -/
theorem C1_counterexample :
    retrieve 5 [⟨[(.str "+", .int 5)], Parent.none⟩, ⟨[], Parent.env 0⟩] 1
        (.str "+") = .ok (.builtin "+") ∧
    Obj.builtin "+" ≠ Obj.int 5 := by
  refine ⟨rfl, ?_⟩
  intro h
  exact Obj.noConfusion h

/-- Claim C1 (amended): `retrieve` searches the queried scope's own
bindings, then (if the parent is a raw dict) that dict, then the fixed
builtin table, and only then recurses into a parent Environment — so a
builtin name not bound in the scope where the lookup happens resolves to
the builtin even when an ancestor scope binds it; and the lookup fails
with LispNameError exactly when the name is bound in no scope along the
chain and is not a builtin. -/
theorem C1_retrieve_amended :
    (∀ (k : Nat) (store : Store) (envId : Nat) (e : EnvR) (p : Nat)
       (var v : Obj),
       store[envId]? = some e →
       dictFind e.var_bind var = Option.none →
       e.parent = Parent.env p →
       builtinFind var = some v →
       retrieve (k + 1) store envId var = .ok v) ∧
    (∀ (k : Nat) (store : Store) (envId : Nat) (var : Obj),
       StoreWF store → envId < store.length → envId < k →
       (retrieve k store envId var = .error .nameError ↔
        chainHasBinding k store envId var = false ∧
        builtinFind var = Option.none)) := by
  constructor
  · intro k store envId e p var v hget hfind hparent hbuiltin
    unfold retrieve
    simp only [hget, hfind, hparent, hbuiltin]
  · intro k
    induction k with
    | zero => intro store envId var _ _ hk; omega
    | succ k ih =>
      intro store envId var hwf hlt hk
      have hget : store[envId]? = some store[envId] :=
        List.getElem?_eq_getElem hlt
      unfold retrieve chainHasBinding
      simp only [hget]
      cases hfind : dictFind (store[envId]).var_bind var with
      | some v => simp [hfind]
      | none =>
        simp only [hfind, Option.isSome_none, Bool.false_or]
        cases hparent : (store[envId]).parent with
        | dict d =>
          simp only [hparent]
          cases hd : dictFind d var with
          | some v => simp [hd]
          | none =>
            simp only [hd, Option.isSome_none]
            cases hb : builtinFind var with
            | some v => simp [hb]
            | none => simp [hb]
        | none =>
          simp only [hparent]
          cases hb : builtinFind var with
          | some v => simp [hb]
          | none => simp [hb]
        | env pid =>
          simp only [hparent]
          have hpid : pid < envId := hwf envId pid hlt hparent
          cases hb : builtinFind var with
          | some v => simp [hb]
          | none =>
            simp only [hb]
            rw [ih store pid var hwf (by omega) (by omega)]
            simp [hb]

/-- Witness for `C1_retrieve_amended`: part one applied in the
counterexample store (lookup of `+` from the child scope yields the
builtin), part two applied in a fresh store to the unbound name `y`. -/
theorem C1_retrieve_amended_witness :
    retrieve 1 [⟨[(.str "+", .int 5)], Parent.none⟩, ⟨[], Parent.env 0⟩] 1
        (.str "+") = .ok (.builtin "+") ∧
    (retrieve 1 [⟨[], Parent.none⟩] 0 (.str "y") = .error .nameError ↔
     chainHasBinding 1 [⟨[], Parent.none⟩] 0 (.str "y") = false ∧
     builtinFind (.str "y") = Option.none) := by
  constructor
  · exact C1_retrieve_amended.1 0
      [⟨[(.str "+", .int 5)], Parent.none⟩, ⟨[], Parent.env 0⟩] 1
      ⟨[], Parent.env 0⟩ 0 (.str "+") (.builtin "+") rfl rfl rfl rfl
  · refine C1_retrieve_amended.2 1 [⟨[], Parent.none⟩] 0 (.str "y") ?_
      (by decide) (by decide)
    intro i p h hp
    have hi : i = 0 := by
      have : i < 1 := by simpa using h
      omega
    subst hi
    exact Parent.noConfusion hp

/- ## C2: the `if` condition test -/

/-- Claim C2, counterexample: the claim says every non-Boolean condition
value — for example the integer 1 — is treated as not-true, so
`(if 1 10 20)` would evaluate to 20.  It evaluates to 10: the source
compares the condition with `== True`, and in Python `1 == True`. -/
theorem C2_counterexample :
    runEval (.list [.str "if", .int 1, .int 10, .int 20]) =
      .ok (.int 10, initStore) ∧
    Obj.int 10 ≠ Obj.int 20 := by
  refine ⟨rfl, ?_⟩
  intro h
  injection h with h1
  exact absurd h1 (by decide)

/-- Claim C2 (amended): `if` evaluates the condition and takes the first
branch exactly when the condition's value compares Python-`==` equal to
the Boolean true value — which holds for the Boolean true, the integer 1
and the float 1.0, and for no other value; every other value takes the
second branch. -/
theorem C2_if_amended (fuel : Nat) (c a b : Obj) (envId : Nat)
    (store s1 : Store) (v : Obj)
    (h : evaluate fuel c envId store = .ok (v, s1)) :
    evaluate (fuel + 1) (.list [.str "if", c, a, b]) envId store =
      (if pyEq v (.bool true) then evaluate fuel a envId s1
       else evaluate fuel b envId s1) ∧
    (pyEq v (.bool true) = true ↔
     v = .bool true ∨ v = .int 1 ∨ v = .float 1) := by
  constructor
  · have key : evaluate (fuel + 1) (.list [.str "if", c, a, b]) envId store =
        Except.bind (evaluate fuel c envId store)
          (fun p => if pyEq p.1 (.bool true) then evaluate fuel a envId p.2
                    else evaluate fuel b envId p.2) := rfl
    rw [key, h]
    rfl
  · cases v with
    | bool bb => cases bb <;> simp [pyEq]
    | int n => simp [pyEq, beq_iff_eq]
    | float q => simp [pyEq, beq_iff_eq]
    | str s => simp [pyEq]
    | none => simp [pyEq]
    | pair h t => simp [pyEq]
    | func b p e => simp [pyEq]
    | builtin name => simp [pyEq]
    | list l => simp [pyEq]

/-- Witness for `C2_if_amended` at the condition value 1: `(if 1 10 20)`
reduces to the evaluation of the first branch. -/
theorem C2_if_amended_witness :
    (evaluate 2 (.list [.str "if", .int 1, .int 10, .int 20]) 0 initStore =
      (if pyEq (.int 1) (.bool true) then evaluate 1 (.int 10) 0 initStore
       else evaluate 1 (.int 20) 0 initStore)) ∧
    (pyEq (.int 1) (.bool true) = true ↔
     Obj.int 1 = .bool true ∨ Obj.int 1 = .int 1 ∨ Obj.int 1 = .float 1) :=
  C2_if_amended 1 (.int 1) (.int 10) (.int 20) 0 initStore initStore
    (.int 1) rfl

/- ## C3: `and` / `or` short-circuiting -/

/-- Claim C3, counterexample: the claim says `(and 5 e)` returns false
without evaluating `e`.  With `e` an unbound name, `(and 5 e)` raises
LispNameError — the loop only stops on a value `== False`, 5 is not
`== False`, and `e` IS evaluated. -/
theorem C3_counterexample :
    runEval (.list [.str "and", .int 5, .str "zzz"]) = .error .nameError ∧
    (Except.error Err.nameError : Except Err (Obj × Store)) ≠
      .ok (.bool false, initStore) := by
  refine ⟨rfl, ?_⟩
  intro h
  exact Except.noConfusion h

/-- Claim C3 (amended): `and` evaluates its elements left to right and
returns false on the first element whose value compares Python-`==` equal
to the Boolean FALSE value — the Boolean false, the integer 0 or the
float 0.0, and no other value — without evaluating later elements, and
returns true when no element does (so a non-Boolean, non-zero first
element such as 5 does NOT short-circuit: evaluation continues with the
remaining elements).  Dually `or` returns true on the first element
`==` the Boolean true value (true, 1 or 1.0), else false. -/
theorem C3_and_or_amended (fuel : Nat) (c : Obj) (rest : List Obj)
    (envId : Nat) (store s1 : Store) (v : Obj)
    (h : evaluate fuel c envId store = .ok (v, s1)) :
    (evaluate (fuel + 1) (.list (.str "and" :: c :: rest)) envId store =
      (if pyEq v (.bool false) then .ok (.bool false, s1)
       else evalAndList (evaluate fuel) rest envId s1)) ∧
    (evaluate (fuel + 1) (.list (.str "or" :: c :: rest)) envId store =
      (if pyEq v (.bool true) then .ok (.bool true, s1)
       else evalOrList (evaluate fuel) rest envId s1)) ∧
    (pyEq v (.bool false) = true ↔
     v = .bool false ∨ v = .int 0 ∨ v = .float 0) ∧
    (pyEq v (.bool true) = true ↔
     v = .bool true ∨ v = .int 1 ∨ v = .float 1) := by
  refine ⟨?_, ?_, ?_, ?_⟩
  · have key : evaluate (fuel + 1) (.list (.str "and" :: c :: rest)) envId store =
        Except.bind (evaluate fuel c envId store)
          (fun p => if pyEq p.1 (.bool false) then .ok (.bool false, p.2)
                    else evalAndList (evaluate fuel) rest envId p.2) := rfl
    rw [key, h]
    rfl
  · have key : evaluate (fuel + 1) (.list (.str "or" :: c :: rest)) envId store =
        Except.bind (evaluate fuel c envId store)
          (fun p => if pyEq p.1 (.bool true) then .ok (.bool true, p.2)
                    else evalOrList (evaluate fuel) rest envId p.2) := rfl
    rw [key, h]
    rfl
  · cases v with
    | bool bb => cases bb <;> simp [pyEq]
    | int n => simp [pyEq, beq_iff_eq]
    | float q => simp [pyEq, beq_iff_eq]
    | str s => simp [pyEq]
    | none => simp [pyEq]
    | pair h t => simp [pyEq]
    | func b p e => simp [pyEq]
    | builtin name => simp [pyEq]
    | list l => simp [pyEq]
  · cases v with
    | bool bb => cases bb <;> simp [pyEq]
    | int n => simp [pyEq, beq_iff_eq]
    | float q => simp [pyEq, beq_iff_eq]
    | str s => simp [pyEq]
    | none => simp [pyEq]
    | pair h t => simp [pyEq]
    | func b p e => simp [pyEq]
    | builtin name => simp [pyEq]
    | list l => simp [pyEq]

/-- Witness for `C3_and_or_amended` at the first-element value 5 and the
remaining element `zzz`: since `5 == False` is false, `(and 5 zzz)`
continues into the loop on `[zzz]` instead of returning false. -/
theorem C3_and_or_amended_witness :
    (evaluate 2 (.list [.str "and", .int 5, .str "zzz"]) 0 initStore =
      (if pyEq (.int 5) (.bool false) then .ok (.bool false, initStore)
       else evalAndList (evaluate 1) [.str "zzz"] 0 initStore)) ∧
    (evaluate 2 (.list [.str "or", .int 5, .str "zzz"]) 0 initStore =
      (if pyEq (.int 5) (.bool true) then .ok (.bool true, initStore)
       else evalOrList (evaluate 1) [.str "zzz"] 0 initStore)) ∧
    (pyEq (.int 5) (.bool false) = true ↔
     Obj.int 5 = .bool false ∨ Obj.int 5 = .int 0 ∨ Obj.int 5 = .float 0) ∧
    (pyEq (.int 5) (.bool true) = true ↔
     Obj.int 5 = .bool true ∨ Obj.int 5 = .int 1 ∨ Obj.int 5 = .float 1) :=
  C3_and_or_amended 1 (.int 5) [.str "zzz"] 0 initStore initStore
    (.int 5) rfl

/- ## C4: self-evaluation of fully-evaluated values -/

/-- Claim C4: numbers, Closures, Pairs, Nil and Builtins do evaluate to
themselves in any environment — but BOOLEANS do not: `type(True)` is
`bool`, which is not a member of `[int, float, Function, Pair]`, and
`callable(True)` and `True == None` are both false, so a Boolean tree
falls through to the name lookup, which in the fresh default environment
raises LispNameError instead of returning the Boolean.  (This oversight
matters: the `map` builtin feeds already-evaluated list elements back
through `evaluate`, so mapping over a list containing `@t` breaks.) -/
theorem C4_self_evaluation_boolean_bug :
    (∀ (fuel envId : Nat) (store : Store) (n : Int),
       evaluate (fuel + 1) (.int n) envId store = .ok (.int n, store)) ∧
    (∀ (fuel envId : Nat) (store : Store) (q : Rat),
       evaluate (fuel + 1) (.float q) envId store = .ok (.float q, store)) ∧
    (∀ (fuel envId : Nat) (store : Store) (b p : Obj) (ce : Nat),
       evaluate (fuel + 1) (.func b p ce) envId store =
         .ok (.func b p ce, store)) ∧
    (∀ (fuel envId : Nat) (store : Store) (hd tl : Obj),
       evaluate (fuel + 1) (.pair hd tl) envId store =
         .ok (.pair hd tl, store)) ∧
    (∀ (fuel envId : Nat) (store : Store),
       evaluate (fuel + 1) .none envId store = .ok (.none, store)) ∧
    (∀ (fuel envId : Nat) (store : Store) (name : String),
       evaluate (fuel + 1) (.builtin name) envId store =
         .ok (.builtin name, store)) ∧
    runEval (.bool true) = .error .nameError ∧
    runEval (.bool false) = .error .nameError :=
  ⟨fun _ _ _ _ => rfl, fun _ _ _ _ => rfl, fun _ _ _ _ _ _ => rfl,
   fun _ _ _ _ _ => rfl, fun _ _ _ => rfl, fun _ _ _ _ => rfl, rfl, rfl⟩

/- ## C5: the three-token `( atom )` parse shortcut -/

/-- Claim C5: `parse` on the token sequence `(`, `8`, `)` returns the
one-element list containing the RAW TOKEN STRING `"8"`, not the
classified integer 8 — the three-token branch returns `[tokens[1]]`
without calling `number_or_symbol`, contradicting both the claim and the
function's own docstring ("numbers are represented as Python ints or
floats"). -/
theorem C5_parse_paren_atom_bug :
    parse [['('], ['8'], [')']] = .ok (.list [.str "8"]) ∧
    Obj.str "8" ≠ Obj.int 8 ∧
    number_or_symbol ['8'] = .int 8 := by
  refine ⟨rfl, ?_, rfl⟩
  intro h
  exact Obj.noConfusion h

/- ## C6: comments inside atoms are NOT stripped -/

/-- Claim C6: tokenizing `"ab#comment\n"` emits the single token
`"ab#comment"` — the atom scan, on hitting `#`, advances its end index
past the whole comment before slicing `source[start:end]`, so every
character of the comment (including `#`) lands inside the emitted token,
instead of the atom being truncated to `"ab"`. -/
theorem C6_tokenize_comment_in_token :
    tokenize "ab#comment\n" =
      [['a', 'b', '#', 'c', 'o', 'm', 'm', 'e', 'n', 't']] ∧
    '#' ∈ ['a', 'b', '#', 'c', 'o', 'm', 'm', 'e', 'n', 't'] ∧
    ['a', 'b', '#', 'c', 'o', 'm', 'm', 'e', 'n', 't'] ≠ ['a', 'b'] :=
  ⟨rfl, by decide, by decide⟩

/- ## C7: `concat` copies — except with a single argument -/

theorem duplicate_snd {α : Type} (c : List (Nat × α)) (n : Nat) :
    (HeapModel.duplicate c n).2 = n + c.length := by
  induction c generalizing n with
  | nil => simp [HeapModel.duplicate]
  | cons a t ih =>
    obtain ⟨id, h⟩ := a
    simp only [HeapModel.duplicate, ih, List.length_cons]
    omega

theorem duplicate_ids {α : Type} (c : List (Nat × α)) (n : Nat) :
    ∀ i ∈ HeapModel.cellIds (HeapModel.duplicate c n).1,
      n ≤ i ∧ i < n + c.length := by
  induction c generalizing n with
  | nil => simp [HeapModel.duplicate, HeapModel.cellIds]
  | cons a t ih =>
    obtain ⟨id, h⟩ := a
    intro i hi
    simp only [HeapModel.duplicate, HeapModel.cellIds, List.map_cons,
      List.mem_cons] at hi
    cases hi with
    | inl he => simp only [List.length_cons]; omega
    | inr hm =>
      have := ih (n + 1) i hm
      simp only [List.length_cons]
      omega

theorem duplicate_vals {α : Type} (c : List (Nat × α)) (n : Nat) :
    HeapModel.vals (HeapModel.duplicate c n).1 = HeapModel.vals c := by
  induction c generalizing n with
  | nil => simp [HeapModel.duplicate]
  | cons a t ih =>
    obtain ⟨id, h⟩ := a
    simp [HeapModel.duplicate, HeapModel.vals] at ih ⊢
    exact ih (n + 1)

theorem merge_snd {α : Type} (a b : List (Nat × α)) (n : Nat) :
    (HeapModel.merge a b n).2 = n + a.length := by
  induction a generalizing n with
  | nil => simp [HeapModel.merge]
  | cons x t ih =>
    obtain ⟨id, h⟩ := x
    simp only [HeapModel.merge, ih, List.length_cons]
    omega

theorem merge_ids {α : Type} (a b : List (Nat × α)) (n : Nat) :
    ∀ i ∈ HeapModel.cellIds (HeapModel.merge a b n).1,
      (n ≤ i ∧ i < n + a.length) ∨ i ∈ HeapModel.cellIds b := by
  induction a generalizing n with
  | nil =>
    intro i hi
    right
    simpa [HeapModel.merge] using hi
  | cons x t ih =>
    obtain ⟨id, h⟩ := x
    intro i hi
    simp only [HeapModel.merge, HeapModel.cellIds, List.map_cons,
      List.mem_cons] at hi
    cases hi with
    | inl he => left; simp only [List.length_cons]; omega
    | inr hm =>
      cases ih (n + 1) i hm with
      | inl hr => left; simp only [List.length_cons]; omega
      | inr hr => right; exact hr

theorem merge_vals {α : Type} (a b : List (Nat × α)) (n : Nat) :
    HeapModel.vals (HeapModel.merge a b n).1 =
      HeapModel.vals a ++ HeapModel.vals b := by
  induction a generalizing n with
  | nil => simp [HeapModel.merge, HeapModel.vals]
  | cons x t ih =>
    obtain ⟨id, h⟩ := x
    simp [HeapModel.merge, HeapModel.vals] at ih ⊢
    exact ih (n + 1)

/-- With at least two chains, every cell of the result of `concat` was
allocated at or after counter `n`, and the counter never moves
backwards. -/
theorem concat_ids_ge {α : Type} :
    ∀ (m : Nat) (chains : List (List (Nat × α))) (n : Nat),
      chains.length ≤ m → 2 ≤ chains.length →
      (∀ c ∈ chains, ∀ i ∈ HeapModel.cellIds c, i < n) →
      (∀ i ∈ HeapModel.cellIds (HeapModel.concat chains n).1, n ≤ i) ∧
      n ≤ (HeapModel.concat chains n).2 := by
  intro m
  induction m with
  | zero => intro chains n hm h2 _; omega
  | succ m ih =>
    intro chains n hm h2 hfresh
    match chains with
    | c1 :: c2 :: rest =>
      simp only [HeapModel.concat]
      have hd1 := duplicate_ids c1 n
      have hd1s := duplicate_snd c1 n
      have hd2 := duplicate_ids c2 (HeapModel.duplicate c1 n).2
      have hd2s := duplicate_snd c2 (HeapModel.duplicate c1 n).2
      set d1 := (HeapModel.duplicate c1 n).1 with hdef1
      set n1 := (HeapModel.duplicate c1 n).2 with hdefn1
      set d2 := (HeapModel.duplicate c2 n1).1 with hdef2
      set n2 := (HeapModel.duplicate c2 n1).2 with hdefn2
      have hm1 := merge_ids d1 d2 n2
      have hm1s := merge_snd d1 d2 n2
      set j := (HeapModel.merge d1 d2 n2).1 with hdefj
      set n3 := (HeapModel.merge d1 d2 n2).2 with hdefn3
      have hjge : ∀ i ∈ HeapModel.cellIds j, n ≤ i := by
        intro i hi
        cases hm1 i hi with
        | inl hr => omega
        | inr hr => have := hd2 i hr; omega
      have hjlt : ∀ i ∈ HeapModel.cellIds j, i < n3 := by
        intro i hi
        cases hm1 i hi with
        | inl hr => omega
        | inr hr => have := hd2 i hr; omega
      match rest with
      | [] =>
        simp only [HeapModel.concat]
        exact ⟨hjge, by omega⟩
      | r :: rs =>
        have hrec := ih (j :: r :: rs) n3 (by simp at hm ⊢; omega)
          (by simp)
          (by
            intro c hc i hi
            simp only [List.mem_cons] at hc
            cases hc with
            | inl he => subst he; exact hjlt i hi
            | inr hm2 =>
              have : i < n := hfresh c (by simp [hm2]) i hi
              omega)
        refine ⟨?_, by omega⟩
        intro i hi
        have := hrec.1 i hi
        omega

/-- The serialization of `concat`'s result is the concatenation of the
inputs' serializations. -/
theorem concat_vals {α : Type} :
    ∀ (m : Nat) (chains : List (List (Nat × α))) (n : Nat),
      chains.length ≤ m → 1 ≤ chains.length →
      HeapModel.vals (HeapModel.concat chains n).1 =
        (chains.map (fun c => HeapModel.vals c)).flatten := by
  intro m
  induction m with
  | zero => intro chains n hm h1; omega
  | succ m ih =>
    intro chains n hm h1
    match chains with
    | [c] => simp [HeapModel.concat]
    | c1 :: c2 :: rest =>
      simp only [HeapModel.concat]
      have hrec := ih ((HeapModel.merge (HeapModel.duplicate c1 n).1
          (HeapModel.duplicate c2 (HeapModel.duplicate c1 n).2).1
          (HeapModel.duplicate c2 (HeapModel.duplicate c1 n).2).2).1 :: rest)
        (HeapModel.merge (HeapModel.duplicate c1 n).1
          (HeapModel.duplicate c2 (HeapModel.duplicate c1 n).2).1
          (HeapModel.duplicate c2 (HeapModel.duplicate c1 n).2).2).2
        (by simp at hm ⊢; omega) (by simp)
      rw [hrec]
      simp [merge_vals, duplicate_vals]

/-- Claim C7, counterexample: the claim says the result of `concat`
shares no Pair cell with any input chain, *including* when `concat` is
given a single chain argument.  With the single two-cell chain holding
cells 0 and 1, `concat` returns that very chain — every cell of the
output is a cell of the input (the source returns `args[0]` itself, with
no copy). -/
theorem C7_counterexample :
    (HeapModel.concat [[(0, (1 : Int)), (1, 2)]] 2).1 = [(0, 1), (1, 2)] ∧
    (0 : Nat) ∈ HeapModel.cellIds
      (HeapModel.concat [[(0, (1 : Int)), (1, 2)]] 2).1 ∧
    (0 : Nat) ∈ HeapModel.cellIds [((0 : Nat), (1 : Int)), (1, 2)] := by
  have h1 : (HeapModel.concat [[(0, (1 : Int)), (1, 2)]] 2).1 =
      [(0, 1), (1, 2)] := by simp [HeapModel.concat]
  refine ⟨h1, ?_, by simp [HeapModel.cellIds]⟩
  rw [h1]
  simp [HeapModel.cellIds]

/-- Claim C7 (amended): when `concat` is applied to TWO OR MORE chains
whose cells were all allocated before the current allocation counter, the
resulting chain is built from freshly allocated cells only — it shares no
Pair cell with any input chain (so mutating an input afterwards cannot
change the output) — and it serializes to the concatenation of the
inputs, e.g. (1 2) and (3 4) yield (1 2 3 4); with exactly one argument,
however, `concat` returns the input chain itself, aliased (see the
counterexample). -/
theorem C7_concat_amended {α : Type} (chains : List (List (Nat × α)))
    (n : Nat) (h2 : 2 ≤ chains.length)
    (hfresh : ∀ c ∈ chains, ∀ i ∈ HeapModel.cellIds c, i < n) :
    (∀ c ∈ chains, ∀ i ∈ HeapModel.cellIds (HeapModel.concat chains n).1,
       i ∉ HeapModel.cellIds c) ∧
    HeapModel.vals (HeapModel.concat chains n).1 =
      (chains.map (fun c => HeapModel.vals c)).flatten := by
  constructor
  · intro c hc i hi hic
    have hge := (concat_ids_ge chains.length chains n (Nat.le_refl _)
      h2 hfresh).1 i hi
    have hlt := hfresh c hc i hic
    omega
  · exact concat_vals chains.length chains n (Nat.le_refl _) (by omega)

/-- Witness for `C7_concat_amended` on the chains (1 2) and (3 4) with
all input cells allocated below counter 4: no output cell is an input
cell, and the output serializes to (1 2 3 4). -/
theorem C7_concat_amended_witness :
    (∀ c ∈ [[((0 : Nat), (1 : Int)), (1, 2)], [(2, 3), (3, 4)]],
       ∀ i ∈ HeapModel.cellIds
         (HeapModel.concat [[((0 : Nat), (1 : Int)), (1, 2)], [(2, 3), (3, 4)]] 4).1,
       i ∉ HeapModel.cellIds c) ∧
    HeapModel.vals
        (HeapModel.concat [[((0 : Nat), (1 : Int)), (1, 2)], [(2, 3), (3, 4)]] 4).1 =
      ([[((0 : Nat), (1 : Int)), (1, 2)], [(2, 3), (3, 4)]].map
        (fun c => HeapModel.vals c)).flatten :=
  C7_concat_amended [[(0, (1 : Int)), (1, 2)], [(2, 3), (3, 4)]] 4
    (by decide) (by decide)

/- ## C8: error kinds for bad application heads -/

/-- Claim C8, counterexample: the claim says evaluating the application
whose head is the float 1.5 fails with EvaluationError (and never with
another host-language error).  It fails with a host TypeError: only an
empty tree or a literal-int head is caught by the LispEvaluationError
check; the float head reaches `func_obj(function_args)`, and calling a
float raises TypeError. -/
theorem C8_counterexample :
    runEval (.list [.float (3 / 2)]) = .error .typeError ∧
    Err.typeError ≠ Err.evalError := ⟨rfl, by decide⟩

/-- Claim C8 (amended): an empty ordered sequence, or one whose head is a
literal integer, fails with LispEvaluationError; a head that is the float
1.5 — or any float, or Nil, or a Pair — instead reaches the call
`func_obj(function_args)` and fails with a host TypeError; a Boolean head
is looked up as a name and (in the fresh default environment) fails with
LispNameError. -/
theorem C8_apply_amended :
    (∀ (fuel envId : Nat) (store : Store),
       evaluate (fuel + 1) (.list []) envId store = .error .evalError) ∧
    (∀ (fuel envId : Nat) (store : Store) (n : Int) (rest : List Obj),
       evaluate (fuel + 1) (.list (.int n :: rest)) envId store =
         .error .evalError) ∧
    (∀ (fuel envId : Nat) (store : Store) (q : Rat),
       evaluate (fuel + 2) (.list [.float q]) envId store =
         .error .typeError) ∧
    (∀ (fuel envId : Nat) (store : Store),
       evaluate (fuel + 2) (.list [.none]) envId store =
         .error .typeError) ∧
    (∀ (fuel envId : Nat) (store : Store) (hd tl : Obj),
       evaluate (fuel + 2) (.list [.pair hd tl]) envId store =
         .error .typeError) ∧
    (∀ (fuel : Nat) (b : Bool),
       evaluate (fuel + 2) (.list [.bool b]) 0 initStore =
         .error .nameError) :=
  ⟨fun _ _ _ => rfl, fun _ _ _ _ _ => rfl, fun _ _ _ _ => rfl,
   fun _ _ _ => rfl, fun _ _ _ _ _ => rfl, fun _ b => by cases b <;> rfl⟩

/- ## C9: closure application arity -/

/-- The `func_eval` binding loop on a list of parameter names equals the
dict built by folding over the zip of parameters and arguments. -/
theorem bindParams_zip :
    ∀ (args ps : List Obj) (i : Nat) (acc : List (Obj × Obj)),
      ps.length = i + args.length →
      bindParams (.list ps) args i acc =
        .ok (((ps.drop i).zip args).foldl
          (fun d pa => dictSet d pa.1 pa.2) acc) := by
  intro args
  induction args with
  | nil =>
    intro ps i acc hlen
    simp [bindParams]
  | cons a rest ih =>
    intro ps i acc hlen
    have hi : i < ps.length := by simp at hlen; omega
    have hidx : pyIndex (.list ps) i = .ok ps[i] := by
      simp [pyIndex, List.getElem?_eq_getElem hi]
    have hdrop : ps.drop i = ps[i] :: ps.drop (i + 1) :=
      List.drop_eq_getElem_cons hi
    calc bindParams (.list ps) (a :: rest) i acc
        = bindParams (.list ps) rest (i + 1) (dictSet acc ps[i] a) := by
          simp only [bindParams, hidx]
          rfl
      _ = .ok (((ps.drop (i + 1)).zip rest).foldl
            (fun d pa => dictSet d pa.1 pa.2) (dictSet acc ps[i] a)) := by
          apply ih
          simp at hlen ⊢
          omega
      _ = .ok (((ps.drop i).zip (a :: rest)).foldl
            (fun d pa => dictSet d pa.1 pa.2) acc) := by
          rw [hdrop, List.zip_cons_cons, List.foldl_cons]

/-- Claim C9: applying a Closure whose parameter-name sequence has a
different length than the argument list fails with LispEvaluationError,
whatever the body — the body is never evaluated, and the arguments are
never truncated or padded; with matching lengths, a new child scope of
the Closure's captured environment is appended to the store, each
parameter is bound there to its argument, and the Closure's body is
evaluated in that scope by the recursive `evaluate` call `ev`. -/
theorem C9_closure_arity (ev : EvalFn) (body : Obj) (ps : List Obj)
    (cEnv : Nat) (args : List Obj) (store : Store) :
    (args.length ≠ ps.length →
      applyFuncObj ev (.func body (.list ps) cEnv) args store =
        .error .evalError) ∧
    (args.length = ps.length →
      applyFuncObj ev (.func body (.list ps) cEnv) args store =
        ev body store.length
          (store ++ [⟨(ps.zip args).foldl
            (fun d pa => dictSet d pa.1 pa.2) [], Parent.env cEnv⟩])) := by
  have h1 : applyFuncObj ev (.func body (.list ps) cEnv) args store =
      (if args.length = ps.length then
        funcEval ev (.func body (.list ps) cEnv) args store
       else .error .evalError) := rfl
  constructor
  · intro hne
    rw [h1, if_neg hne]
  · intro heq
    have hbind := bindParams_zip args ps 0 [] (by omega)
    simp only [List.drop_zero] at hbind
    rw [h1, if_pos heq]
    show (do
        let bind ← bindParams (.list ps) args 0 []
        ev body store.length
          (store ++ [EnvR.mk bind (Parent.env cEnv)])) = _
    rw [hbind]
    rfl

/-- Witness for `C9_closure_arity`: the closure `(function (a) 7)` —
one parameter, body the literal 7 — applied once to zero arguments
(LispEvaluationError) and once to the single argument 3 (the body is
evaluated in the fresh scope binding `a` to 3). -/
theorem C9_closure_arity_witness :
    applyFuncObj (evaluate 5) (.func (.int 7) (.list [.str "a"]) 0) []
        initStore = .error .evalError ∧
    applyFuncObj (evaluate 5) (.func (.int 7) (.list [.str "a"]) 0)
        [.int 3] initStore =
      evaluate 5 (.int 7) initStore.length
        (initStore ++ [⟨[(.str "a", .int 3)], Parent.env 0⟩]) :=
  ⟨(C9_closure_arity (evaluate 5) (.int 7) [.str "a"] 0 [] initStore).1
      (by decide),
   (C9_closure_arity (evaluate 5) (.int 7) [.str "a"] 0 [.int 3]
      initStore).2 rfl⟩

/- ## C10: the shared default environment -/

/-- Claim C10: `def evaluate(tree, env = Environment())` creates its
default environment ONCE, when the `def` is executed at module load, so
every call that omits `env` shares it (`evalDefault`; the internal
`evaluate` calls of `map` and `reduce` also omit `env` and use it, see
`mapLoop` / `reduceLoop`).  Consequently, evaluating `(:= x 5)` with the
default environment and then, in a SEPARATE call, evaluating the bare
symbol `x` with the default environment yields 5 rather than failing with
NameError: the first call's binding persists in the shared default
environment. -/
theorem C10_default_env_shared :
    evalDefault 10 (.list [.str ":=", .str "x", .int 5]) initStore =
      .ok (.int 5, [⟨[(.str "x", .int 5)], Parent.none⟩]) ∧
    evalDefault 10 (.str "x") [⟨[(.str "x", .int 5)], Parent.none⟩] =
      .ok (.int 5, [⟨[(.str "x", .int 5)], Parent.none⟩]) :=
  ⟨rfl, rfl⟩

end Lisp
